import Mathlib

/-!
Verification of the retirement lifecycle model solver.

This file gives a shallow embedding of the parts of the repository
(`Main/transitions.py`, `Main/funs.py`, `Main/egm.py`, `Main/post_decision.py`,
`Main/Model.py`, `New_main/last_period.py`) that the examined properties are
about, and proves or refutes each property against that embedding.

Conventions:
* Python ints are modelled as `Int` (model time `t`, choices `d`, age
  differences `ad`), array sizes as `Nat`.
* Floating point values are modelled as real numbers (`Real`) where
  transcendental functions are involved and as rationals (`Rat`) where the
  code is purely arithmetical, so that concrete instances evaluate.
* A Python function whose return variable is only assigned on some branches
  (falling through to an `UnboundLocalError` otherwise) is modelled as a
  function into `Option`.
-/

namespace Retirement

/-! ### Parameters used by `Main/transitions.py` -/

/-- The slice of the parameter class used by the choice-set transition
functions: `par.Tr` is the forced-retirement time index. -/
structure ParT where
  Tr : Int
deriving DecidableEq, Repr

/-- Embedding of `transitions.d_plus` (`Main/transitions.py`, lines 59-70).
The Python body assigns the result only when `d_t == 0`, or when `d_t == 1`
and `t+1 <= par.Tr-1`; on any other input the local variable is never bound
and the `return` raises, which we model as `none`. -/
def d_plus (t d_t : Int) (par : ParT) : Option (List Int) :=
  if d_t = 0 then
    some [0]
  else if d_t = 1 then
    if t + 1 = par.Tr - 1 then some [0]
    else if t + 1 < par.Tr - 1 then some [0, 1]
    else none
  else none

/-- Embedding of `transitions.d_plus_c` (`Main/transitions.py`, lines 72-114),
the joint choice-set transition for couples.  Each `np.array([...])` literal
is kept verbatim as a list, including the two-element array `[0,0]` of the
forced-retirement branches for `d == 1` and `d == 2`. -/
def d_plus_c (t ad d : Int) (par : ParT) : Option (List Int) :=
  if d = 0 then
    some [0]
  else if d = 1 then
    if t + 1 + ad = par.Tr - 1 then some [0, 0] else some [0, 1]
  else if d = 2 then
    if t + 1 = par.Tr - 1 then some [0, 0] else some [0, 2]
  else if d = 3 then
    if ad = 0 ∧ t + 1 = par.Tr - 1 then some [0]
    else if ad < 0 ∧ t + 1 = par.Tr - 1 then some [0, 1]
    else if ad > 0 ∧ t + 1 + ad = par.Tr - 1 then some [0, 2]
    else some [0, 1, 2, 3]
  else none

/-! ### Theorems about the single-household transition `d_plus` -/

/-- Claim C5: For every model time `t` with `t+1 <= par.Tr - 1`, the
single-household choice-set transition satisfies: a retired household
(`d_t = 0`) gets exactly the feasible set `{0}`; a working household
(`d_t = 1`) gets exactly `{0}` when `t+1 = par.Tr - 1` (forced to retire
next period) and exactly `{0, 1}` when `t+1 < par.Tr - 1`. -/
theorem d_plus_feasible_sets (t d_t : Int) (par : ParT)
    (_h : t + 1 ≤ par.Tr - 1) :
    (d_t = 0 → d_plus t d_t par = some [0]) ∧
    (d_t = 1 → (t + 1 = par.Tr - 1 → d_plus t d_t par = some [0]) ∧
               (t + 1 < par.Tr - 1 → d_plus t d_t par = some [0, 1])) := by
  refine ⟨fun h0 => ?_, fun h1 => ⟨fun he => ?_, fun hlt => ?_⟩⟩
  · simp [d_plus, h0]
  · simp [d_plus, h1, he]
  · have hne : ¬ (t + 1 = par.Tr - 1) := by omega
    simp [d_plus, h1, hne, hlt]

/-- Witness for `d_plus_feasible_sets` at `t = 0`, `par.Tr = 5`. -/
theorem d_plus_feasible_sets_witness :
    (0 : Int) + 1 ≤ (5 : Int) - 1 ∧
    ((1 : Int) = 0 → d_plus 0 1 ⟨5⟩ = some [0]) ∧
    ((1 : Int) = 1 → ((0 : Int) + 1 = 5 - 1 → d_plus 0 1 ⟨5⟩ = some [0]) ∧
               ((0 : Int) + 1 < 5 - 1 → d_plus 0 1 ⟨5⟩ = some [0, 1])) :=
  ⟨by decide, d_plus_feasible_sets 0 1 ⟨5⟩ (by decide)⟩

/-- Claim C10: `d_plus` returns a defined result exactly under the
precondition `d_t = 0 ∨ (d_t = 1 ∧ t+1 ≤ par.Tr - 1)`: in particular a
household recorded as working strictly past the forced-retirement boundary
(`d_t = 1`, `t+1 > par.Tr - 1`) reaches no assigning branch and the call
fails, so callers must guarantee the precondition. -/
theorem d_plus_defined_iff (t d_t : Int) (par : ParT) :
    (d_plus t d_t par).isSome ↔
      (d_t = 0 ∨ (d_t = 1 ∧ t + 1 ≤ par.Tr - 1)) := by
  unfold d_plus
  by_cases h0 : d_t = 0
  · simp [h0]
  · by_cases h1 : d_t = 1
    · by_cases he : t + 1 = par.Tr - 1
      · simp [h0, h1, he]
      · by_cases hlt : t + 1 < par.Tr - 1
        · simp [h0, h1, he, hlt]; omega
        · simp [h0, h1, he, hlt]; omega
    · simp [h0, h1]

/-! ### Theorems about the couple transition `d_plus_c` -/

/-- Claim C6: For the couple joint-choice transition with age difference
`ad = 0` and current joint choice `d = 3` (both working): exactly one
period before forced retirement (`t+1 = par.Tr - 1`) the feasible set is
the singleton `{0}`, and more than one period before (`t+1 < par.Tr - 1`)
it is the full four-choice set `{0, 1, 2, 3}`. -/
theorem d_plus_c_both_working_boundary (t : Int) (par : ParT) :
    (t + 1 = par.Tr - 1 → d_plus_c t 0 3 par = some [0]) ∧
    (t + 1 < par.Tr - 1 → d_plus_c t 0 3 par = some [0, 1, 2, 3]) := by
  constructor
  · intro he
    simp [d_plus_c, he]
  · intro hlt
    have hne : ¬ (t + 1 = par.Tr - 1) := by omega
    simp [d_plus_c, hne]

/-- Witness for `d_plus_c_both_working_boundary`: at `par.Tr = 2`, `t = 0`
the set is `{0}`; at `par.Tr = 5`, `t = 0` it is `{0,1,2,3}`. -/
theorem d_plus_c_both_working_boundary_witness :
    d_plus_c 0 0 3 ⟨2⟩ = some [0] ∧ d_plus_c 0 0 3 ⟨5⟩ = some [0, 1, 2, 3] :=
  ⟨(d_plus_c_both_working_boundary 0 ⟨2⟩).1 (by decide),
   (d_plus_c_both_working_boundary 0 ⟨5⟩).2 (by decide)⟩

/-- Claim C7, counterexample: The claim that every array returned by
`d_plus_c` enumerates the feasible next-period joint choices without
repetition fails: with `par.Tr = 2`, `t = 0`, `ad = 0`, `d = 1` (husband
retired, wife working and forced to retire next period) the code returns
the literal `np.array([0,0])`, which repeats the single feasible choice. -/
theorem d_plus_c_repetition_counterexample :
    d_plus_c 0 0 1 ⟨2⟩ = some [0, 0] ∧ ¬ ([(0 : Int), 0].Nodup) := by
  constructor
  · decide
  · decide

/-- Claim C7, amended: For every defined input (`d ∈ {0,1,2,3}`) the returned
list has 1, 2, or 4 distinct choices, and it is duplicate-free except in the
two one-worker forced-retirement branches, where it is the two-element list
`[0, 0]` repeating the single feasible choice `0`. -/
theorem d_plus_c_distinct_choices (t ad d : Int) (par : ParT)
    (h : d = 0 ∨ d = 1 ∨ d = 2 ∨ d = 3) :
    ∃ l, d_plus_c t ad d par = some l ∧
      (l.dedup.length = 1 ∨ l.dedup.length = 2 ∨ l.dedup.length = 4) ∧
      (l.Nodup ∨ l = [0, 0]) := by
  rcases h with h | h | h | h
  · exact ⟨[0], by simp [d_plus_c, h], by decide, by decide⟩
  · by_cases hw : t + 1 + ad = par.Tr - 1
    · exact ⟨[0, 0], by simp [d_plus_c, h, hw], by decide, by decide⟩
    · exact ⟨[0, 1], by simp [d_plus_c, h, hw], by decide, by decide⟩
  · by_cases hh : t + 1 = par.Tr - 1
    · exact ⟨[0, 0], by simp [d_plus_c, h, hh], by decide, by decide⟩
    · exact ⟨[0, 2], by simp [d_plus_c, h, hh], by decide, by decide⟩
  · by_cases h1 : ad = 0 ∧ t + 1 = par.Tr - 1
    · exact ⟨[0], by simp [d_plus_c, h, h1], by decide, by decide⟩
    · by_cases h2 : ad < 0 ∧ t + 1 = par.Tr - 1
      · obtain ⟨hneg, he⟩ := h2
        exact ⟨[0, 1],
          by simp [d_plus_c, h, hneg, he, show ¬ (ad = 0) by omega],
          by decide, by decide⟩
      · by_cases h3 : ad > 0 ∧ t + 1 + ad = par.Tr - 1
        · exact ⟨[0, 2], by simp [d_plus_c, h, h1, h2, h3], by decide, by decide⟩
        · exact ⟨[0, 1, 2, 3], by simp [d_plus_c, h, h1, h2, h3], by decide, by decide⟩

/-- Witness for `d_plus_c_distinct_choices` at `t = 0`, `ad = 0`, `d = 3`,
`par.Tr = 5`. -/
theorem d_plus_c_distinct_choices_witness :
    ((3 : Int) = 0 ∨ (3 : Int) = 1 ∨ (3 : Int) = 2 ∨ (3 : Int) = 3) ∧
    ∃ l, d_plus_c 0 0 3 ⟨5⟩ = some l ∧
      (l.dedup.length = 1 ∨ l.dedup.length = 2 ∨ l.dedup.length = 4) ∧
      (l.Nodup ∨ l = [0, 0]) :=
  ⟨by decide, d_plus_c_distinct_choices 0 0 3 ⟨5⟩ (by decide)⟩

/-! ### Logsum functions from `Main/funs.py` -/

/-- The slice of the parameter class used by the logsum functions:
`par.sigma_eta` is the taste-shock scale. -/
structure ParU where
  sigma_eta : ℝ

/-- Embedding of `funs.logsum2` (`Main/funs.py`, lines 90-124).  `V` has one
row per choice and one column per grid point.  When `|sigma| > 1e-10` the
smooth logsum/probabilities are computed; otherwise the logsum is the row
maximum and the probability column is set by
`if V[0,i] >= mxm: prob[0,i] = 1 else: prob[1,i] = 1`. -/
noncomputable def logsum2 {n : ℕ} (V : Fin 2 → Fin n → ℝ) (par : ParU) :
    (Fin n → ℝ) × (Fin 2 → Fin n → ℝ) := by
  classical
  exact
    let sigma := par.sigma_eta
    let mxm : Fin n → ℝ := fun i => max (V 0 i) (V 1 i)
    if |sigma| > 1e-10 then
      let logsum : Fin n → ℝ := fun i =>
        mxm i + sigma * Real.log (∑ r : Fin 2, Real.exp ((V r i - mxm i) / sigma))
      (logsum, fun r i => Real.exp ((V r i - logsum i) / sigma))
    else
      (mxm, fun r i =>
        if V 0 i ≥ mxm i then (if r = 0 then 1 else 0)
        else (if r = 1 then 1 else 0))

/-- Embedding of `funs.logsum4` (`Main/funs.py`, lines 127-166).  In the
degenerate branch the Python code initializes `prob = np.zeros(V.shape)` and
then runs `if V[0,i] >= mx: prob[0,i] = 1 elif V[1,i] >= mx: ... elif
V[2,i] >= mx: ... else: prob[3,i]` — the final `else` arm is the bare
expression `prob[3,i]` with no assignment, so a column whose unique arg-max
is row 3 is left all zeros.  The trailing `else 0` below mirrors that no-op
exactly. -/
noncomputable def logsum4 {n : ℕ} (V : Fin 4 → Fin n → ℝ) (par : ParU) :
    (Fin n → ℝ) × (Fin 4 → Fin n → ℝ) := by
  classical
  exact
    let sigma := par.sigma_eta
    let mxm : Fin n → ℝ := fun i =>
      max (max (V 0 i) (V 1 i)) (max (V 2 i) (V 3 i))
    if |sigma| > 1e-10 then
      let logsum : Fin n → ℝ := fun i =>
        mxm i + sigma * Real.log (∑ r : Fin 4, Real.exp ((V r i - mxm i) / sigma))
      (logsum, fun r i => Real.exp ((V r i - logsum i) / sigma))
    else
      (mxm, fun r i =>
        if V 0 i ≥ mxm i then (if r = 0 then 1 else 0)
        else if V 1 i ≥ mxm i then (if r = 1 then 1 else 0)
        else if V 2 i ≥ mxm i then (if r = 2 then 1 else 0)
        else 0)

/-- A one-column value matrix whose unique arg-max is the last-listed
choice (row 3): `V = (0, 0, 0, 1)ᵀ`. -/
def Vrow3 : Fin 4 → Fin 1 → ℝ := fun r _ => if r = 3 then 1 else 0

/-- Development lemma (not itself one of the examined claims): in the
degenerate branch `logsum2` does return the hard maximum and a proper
arg-max indicator with ties broken toward the first-listed choice. -/
theorem logsum2_hard_branch {n : ℕ} (V : Fin 2 → Fin n → ℝ) (par : ParU)
    (h : |par.sigma_eta| ≤ 1e-10) (i : Fin n) :
    (logsum2 V par).1 i = max (V 0 i) (V 1 i) ∧
    (V 1 i ≤ V 0 i →
      (logsum2 V par).2 0 i = 1 ∧ (logsum2 V par).2 1 i = 0) ∧
    (V 0 i < V 1 i →
      (logsum2 V par).2 0 i = 0 ∧ (logsum2 V par).2 1 i = 1) := by
  classical
  have hs : ¬ (|par.sigma_eta| > 1e-10) := not_lt.mpr h
  refine ⟨?_, ?_, ?_⟩
  · simp only [logsum2, hs, if_false]
  · intro hle
    simp [logsum2, hs, hle]
  · intro hlt
    simp [logsum2, hs, hlt.not_le]

/-- Claim C1, code evaluation at the failing input: With `sigma_eta = 0` the
degenerate branch is taken, and on `Vrow3` (unique arg-max at the
last-listed choice) `logsum4` does return the hard maximum `1` as the
logsum, but its probability column sums to `0`: no entry is ever set to `1`
because the final `elif` chain ends in the non-assigning expression
`prob[3,i]`.  The claimed arg-max indicator (exactly one entry equal to
`1`) therefore fails for `logsum4`. -/
theorem logsum4_missing_assignment_eval :
    (logsum4 Vrow3 ⟨0⟩).1 0 = 1 ∧
    (∑ r : Fin 4, (logsum4 Vrow3 ⟨0⟩).2 r 0) = 0 := by
  classical
  have e0 : ¬ ((0 : Fin 4) = 3) := by decide
  have e1 : ¬ ((1 : Fin 4) = 3) := by decide
  have e2 : ¬ ((2 : Fin 4) = 3) := by decide
  constructor
  · norm_num [logsum4, Vrow3, e0, e1, e2, sup_eq_max, max_def]
  · norm_num [logsum4, Vrow3, Fin.sum_univ_four, e0, e1, e2,
      sup_eq_max, max_def]

/-! ### Terminal period (`New_main/last_period.py`) and the stored solution
slices of `Main/egm.py` -/

/-- The slice of the parameter class used by the terminal-period solver:
preference parameters `beta`, `gamma` (bequest weight), `rho` (risk
aversion), and the grid parameters `a_max`, `Na`. -/
structure ParL where
  beta : ℝ
  gamma : ℝ
  rho : ℝ
  a_max : ℝ
  Na : ℕ

/-- `np.linspace(lo, hi, n)`: `n` evenly spaced points from `lo` to `hi`
inclusive.  For `n = 1` numpy returns `[lo]`, matched here because division
by zero is zero. -/
noncomputable def linspace (lo hi : ℝ) (n : ℕ) : List ℝ :=
  (List.range n).map (fun (i : ℕ) => lo + (i : ℝ) * (hi - lo) / ((n : ℝ) - 1))

namespace last_period

/-- The analytic unconstrained bequest optimum
`cons = (par.beta*par.gamma)**(-1/par.rho)` of `last_period.solve`
(`New_main/last_period.py`, line 22). -/
noncomputable def cons (par : ParL) : ℝ :=
  (par.beta * par.gamma) ^ (-(1 : ℝ) / par.rho)

/-- The terminal-period cash-on-hand grid
`m[:] = np.linspace(1e-6, par.a_max, par.Na)` (`New_main/last_period.py`,
line 18).  The first `poc` constraint points of the solution array are left
untouched by `solve` and are not part of this slice. -/
noncomputable def m (par : ParL) : List ℝ :=
  linspace 1e-6 par.a_max par.Na

/-- The terminal-period consumption written by the loop
`if m[i] > cons: c[i] = cons else: c[i] = m[i]`
(`New_main/last_period.py`, lines 23-27). -/
noncomputable def c (par : ParL) : List ℝ := by
  classical
  exact (m par).map (fun mi => if mi > cons par then cons par else mi)

end last_period

/-- Shared helper: the terminal-period branch
`if m[i] > cons then cons else m[i]` is exactly `min m[i] cons`. -/
theorem last_period_c_eq_map_min (par : ParL) :
    last_period.c par =
      (last_period.m par).map (fun mi => min mi (last_period.cons par)) := by
  classical
  unfold last_period.c
  refine List.map_congr_left (fun mi _ => ?_)
  by_cases h : mi > last_period.cons par
  · simp [h, min_eq_right h.le]
  · simp [h, min_eq_left (not_lt.mp h)]

/-- Shared helper: every point of the terminal-period grid is at least the
grid floor `1e-6`, provided the grid ceiling is above the floor. -/
theorem last_period_m_lower_bound (par : ParL) (hmax : 1e-6 ≤ par.a_max) :
    ∀ mi ∈ last_period.m par, (1e-6 : ℝ) ≤ mi := by
  intro mi hmi
  unfold last_period.m linspace at hmi
  obtain ⟨i, hi, rfl⟩ := List.mem_map.mp hmi
  have hn : 1 ≤ par.Na := by
    rcases Nat.eq_zero_or_pos par.Na with h0 | h1
    · rw [h0] at hi
      simp at hi
    · exact h1
  have hn' : (1 : ℝ) ≤ (par.Na : ℝ) := by exact_mod_cast hn
  have hnum : (0 : ℝ) ≤ (i : ℝ) * (par.a_max - (1e-6 : ℝ)) := by
    have h1 : (0 : ℝ) ≤ (i : ℝ) := Nat.cast_nonneg i
    have h2 : (0 : ℝ) ≤ par.a_max - 1e-6 := by linarith
    exact mul_nonneg h1 h2
  have hden : (0 : ℝ) ≤ (par.Na : ℝ) - 1 := by linarith
  have := div_nonneg hnum hden
  linarith

/-- Shared helper: the terminal-period grid is non-decreasing, provided the
grid ceiling is above the floor. -/
theorem last_period_m_chain (par : ParL) (hmax : 1e-6 ≤ par.a_max) :
    (last_period.m par).Chain' (· ≤ ·) := by
  unfold last_period.m linspace
  rw [List.chain'_map]
  rcases hNa : par.Na with _ | k
  · simp
  · rw [List.chain'_range_succ]
    intro j hj
    have hk : (0 : ℝ) ≤ (k : ℝ) := Nat.cast_nonneg k
    have hstep : (0 : ℝ) ≤ (par.a_max - 1e-6) / (((k : ℕ) + 1 : ℕ) - 1 : ℝ) := by
      apply div_nonneg (by linarith)
      push_cast
      linarith
    have hmono : (j : ℝ) * ((par.a_max - 1e-6) / (((k : ℕ) + 1 : ℕ) - 1 : ℝ)) ≤
        ((j : ℝ) + 1) * ((par.a_max - 1e-6) / (((k : ℕ) + 1 : ℕ) - 1 : ℝ)) := by
      apply mul_le_mul_of_nonneg_right (by linarith) hstep
    push_cast at hmono ⊢
    rw [mul_div_assoc, mul_div_assoc]
    linarith

/-- A solved `(time, state, choice)` slice of the solution object: aligned
cash-on-hand, consumption, and value arrays over the grid index. -/
structure EgmSlice where
  m : List ℝ
  c : List ℝ
  v : List ℝ

/-- Embedding of the storage step of `egm.solve_bellman`
(`Main/egm.py`, lines 57-69): for each choice, the stored cash-on-hand grid
is assigned the exogenous post-decision grid (`m[d] = a`, line 66), and the
stored consumption and value are whatever the consav `envelope` call writes
into `c[d]`, `v[d]` (lines 67-69); the envelope is an external library
routine, so its outputs enter here as inputs. -/
def solve_bellman_store (grid_a c_env v_env : List ℝ) : EgmSlice :=
  ⟨grid_a, c_env, v_env⟩

/-- The invariant claimed for every solved slice: the stored cash-on-hand
grid is non-decreasing in the grid index, and pointwise
`0 < consumption ≤ cash-on-hand`. -/
def solInvariant (m c : List ℝ) : Prop :=
  m.Chain' (· ≤ ·) ∧ List.Forall₂ (fun ci mi => 0 < ci ∧ ci ≤ mi) c m

/-- Claim C2: In the terminal period, the stored optimal consumption is the
pointwise minimum of cash-on-hand and the analytic unconstrained bequest
optimum `(beta*gamma)^(-1/rho)`; the embedding of `last_period.solve`
involves no post-decision computation (no `q`/`v_plus_raw` is read). -/
theorem last_period_consumption_closed_form (par : ParL) :
    last_period.c par =
      (last_period.m par).map
        (fun mi => min mi ((par.beta * par.gamma) ^ (-(1 : ℝ) / par.rho))) :=
  last_period_c_eq_map_min par

/-- Claim C8: Every solved slice satisfies the invariant: the terminal-period
slice of `last_period.solve` (given a positive bequest coefficient
`beta*gamma` and a grid ceiling above the `1e-6` floor), and the slice
stored by `egm.solve_bellman` (whose cash-on-hand grid is the exogenous
non-decreasing grid `par.grid_a`, and whose consumption comes from the
external consav upper envelope, whose documented feasibility guarantee
`0 < c ≤ a` is taken as a hypothesis). -/
theorem solved_slices_monotone_feasible (par : ParL)
    (grid_a c_env v_env : List ℝ)
    (hbg : 0 < par.beta * par.gamma)
    (hmax : 1e-6 ≤ par.a_max)
    (hgrid : grid_a.Chain' (· ≤ ·))
    (henv : List.Forall₂ (fun ci ai => 0 < ci ∧ ci ≤ ai) c_env grid_a) :
    solInvariant (last_period.m par) (last_period.c par) ∧
    solInvariant (solve_bellman_store grid_a c_env v_env).m
      (solve_bellman_store grid_a c_env v_env).c := by
  refine ⟨⟨last_period_m_chain par hmax, ?_⟩, hgrid, henv⟩
  rw [last_period_c_eq_map_min par]
  rw [List.forall₂_map_left_iff]
  rw [List.forall₂_same]
  intro mi hmi
  have hlb := last_period_m_lower_bound par hmax mi hmi
  have hcons : 0 < last_period.cons par := Real.rpow_pos_of_pos hbg _
  constructor
  · exact lt_min (by linarith) hcons
  · exact min_le_left _ _

/-- Witness for `solved_slices_monotone_feasible` at
`beta = gamma = rho = 1`, `a_max = 2`, `Na = 3`, `grid_a = [1, 2]`,
`c_env = [1/2, 1]`, `v_env = []`. -/
theorem solved_slices_monotone_feasible_witness :
    (0 : ℝ) < (1 : ℝ) * 1 ∧ (1e-6 : ℝ) ≤ 2 ∧
    ([(1 : ℝ), 2].Chain' (· ≤ ·)) ∧
    (List.Forall₂ (fun ci ai => 0 < ci ∧ ci ≤ ai) [(1 : ℝ)/2, 1] [(1 : ℝ), 2]) ∧
    (solInvariant (last_period.m ⟨1, 1, 1, 2, 3⟩) (last_period.c ⟨1, 1, 1, 2, 3⟩) ∧
     solInvariant (solve_bellman_store [(1 : ℝ), 2] [(1 : ℝ)/2, 1] []).m
       (solve_bellman_store [(1 : ℝ), 2] [(1 : ℝ)/2, 1] []).c) := by
  have hc : ([(1 : ℝ), 2].Chain' (· ≤ ·)) := by
    norm_num [List.chain'_cons]
  have hf : List.Forall₂ (fun ci ai => 0 < ci ∧ ci ≤ ai)
      [(1 : ℝ)/2, 1] [(1 : ℝ), 2] := by
    norm_num [List.forall₂_cons]
  exact ⟨by norm_num, by norm_num, hc, hf,
    solved_slices_monotone_feasible ⟨1, 1, 1, 2, 3⟩ [(1 : ℝ), 2]
      [(1 : ℝ)/2, 1] [] (by norm_num) (by norm_num) hc hf⟩

/-! ### Couple continuation value and post-decision marginal utility
(`Main/egm.py` and `Main/post_decision.py`) -/

/-- The pointwise continuation value computed by `egm.solve_bellman_c`
(`Main/egm.py`, lines 141-142):
`v_raw = par.beta*(pi_h*pi_w*v_plus_raw[d] + (1-pi_h*pi_w)*par.gamma*a)`.
The four-outcome version (lines 137-140) that looks up the single-household
solution for each lone survivor is commented out in the source. -/
def v_raw_c (beta pi_h pi_w vplus gamma a : ℝ) : ℝ :=
  beta * (pi_h * pi_w * vplus + (1 - pi_h * pi_w) * gamma * a)

/-- The pointwise post-decision marginal utility computed by
`post_decision.compute_c` (`Main/post_decision.py`, lines 179-180):
`dead = (1-pi_h)*(1-pi_w)`;
`q = par.beta*(par.R*(1-dead)*avg_marg_u_plus + dead*par.gamma)`. -/
def q_c (beta R pi_h pi_w avg gamma : ℝ) : ℝ :=
  beta * (R * (1 - (1 - pi_h) * (1 - pi_w)) * avg + (1 - pi_h) * (1 - pi_w) * gamma)

/-- The four-survival-outcome continuation blend as the examined property
states it (weights `pi_h*pi_w`, `pi_h*(1-pi_w)`, `(1-pi_h)*pi_w`,
`(1-pi_h)*(1-pi_w)` on the joint value, the two single-household values
`VH`, `VW`, and the bequest utility `gamma*a`).  This definition follows
the property's words, for comparison against `v_raw_c` from the source. -/
def v_raw_spec_blend (beta pi_h pi_w vplus VH VW gamma a : ℝ) : ℝ :=
  beta * (pi_h * pi_w * vplus + pi_h * (1 - pi_w) * VH +
    (1 - pi_h) * pi_w * VW + (1 - pi_h) * (1 - pi_w) * gamma * a)

/-- The post-decision marginal utility using the same survival weighting as
the source's value side (weight `pi_h*pi_w` on the alive term and
`1 - pi_h*pi_w` on the bequest term), as the examined property requires.
This definition follows the property's words, for comparison against `q_c`
from the source. -/
def q_value_weighted (beta R pi_h pi_w avg gamma : ℝ) : ℝ :=
  beta * (R * (pi_h * pi_w) * avg + (1 - pi_h * pi_w) * gamma)

/-- Claim C3, counterexample: At `beta = 1`, `pi_h = pi_w = 1/2`,
`v_plus_raw[d] = 1`, `VH = VW = 0`, `gamma = a = 1`, `R = 1`,
`avg_marg_u_plus = 1`: the code's continuation value is `1` while the
claimed four-outcome blend gives `1/2`, and the code's `q` uses the alive
weight `1-(1-pi_h)(1-pi_w) = 3/4` where the value side's weighting would
give `pi_h*pi_w = 1/4`. -/
theorem couple_survival_blend_counterexample :
    v_raw_c 1 (1/2) (1/2) 1 1 1 ≠ v_raw_spec_blend 1 (1/2) (1/2) 1 0 0 1 1 ∧
    q_c 1 1 (1/2) (1/2) 1 0 ≠ q_value_weighted 1 1 (1/2) (1/2) 1 0 := by
  constructor
  · norm_num [v_raw_c, v_raw_spec_blend]
  · norm_num [q_c, q_value_weighted]

/-- Claim C3, amended: The code's continuation value is the two-outcome
collapse `beta*(pi_h*pi_w*v_plus + (1-pi_h*pi_w)*gamma*a)`: it equals the
four-outcome blend exactly when both one-survivor continuation values are
replaced by the bequest utility `gamma*a` (no single-household lookup).
The code's `q` does not reuse the value side's weighting: it puts
`1-(1-pi_h)(1-pi_w)` on the expected marginal utility and
`(1-pi_h)(1-pi_w)` on `gamma`, and differs from the value-side weighting by
`beta*(pi_h*(1-pi_w) + (1-pi_h)*pi_w)*(R*avg - gamma)`, i.e. whenever the
exactly-one-survivor mass is positive and `R*avg ≠ gamma`. -/
theorem couple_survival_blend_amended
    (beta R pi_h pi_w vplus gamma a avg : ℝ) :
    v_raw_c beta pi_h pi_w vplus gamma a =
      v_raw_spec_blend beta pi_h pi_w vplus (gamma * a) (gamma * a) gamma a ∧
    q_c beta R pi_h pi_w avg gamma - q_value_weighted beta R pi_h pi_w avg gamma =
      beta * (pi_h * (1 - pi_w) + (1 - pi_h) * pi_w) * (R * avg - gamma) := by
  constructor
  · unfold v_raw_c v_raw_spec_blend
    ring
  · unfold q_c q_value_weighted
    ring

/-! ### Quadrature construction (`Main/funs.py`, `GaussHermite_lognorm`) -/

/-- The weighted sum `sum(w*x)` of paired weights and nodes. -/
def wsum (w x : List ℝ) : ℝ :=
  ((w.zip x).map (fun p => p.1 * p.2)).sum

/-- The node transformation of `funs.GaussHermite_lognorm`
(`Main/funs.py`, line 42): `x = np.exp(x*np.sqrt(2)*sigma - 0.5*var)` with
`sigma = np.sqrt(var)`.  The raw Gauss–Hermite nodes come from
`np.polynomial.hermite.hermgauss`, an external library routine, so they
enter as an input. -/
noncomputable def ghTransformX (var : ℝ) (x : List ℝ) : List ℝ :=
  x.map (fun xi => Real.exp (xi * Real.sqrt 2 * Real.sqrt var - 0.5 * var))

/-- The weight transformation of `funs.GaussHermite_lognorm`
(`Main/funs.py`, line 43): `w = w/np.sqrt(np.pi)`. -/
noncomputable def ghTransformW (w : List ℝ) : List ℝ :=
  w.map (fun wi => wi / Real.sqrt Real.pi)

/-- Embedding of `funs.GaussHermite_lognorm` (`Main/funs.py`, lines 29-46):
transform the raw rule, then gate on the assertion
`assert(1 - sum(w*x) < 1e-8)`; a failed assertion raises, modelled as
`none`. -/
noncomputable def GaussHermite_lognorm (var : ℝ) (x w : List ℝ) :
    Option (List ℝ × List ℝ) := by
  classical
  exact
    if 1 - wsum (ghTransformW w) (ghTransformX var x) < 1e-8 then
      some (ghTransformX var x, ghTransformW w)
    else none

/-- Claim C4: Under the Gauss–Hermite underestimate property of the external
rule (the quadrature approximation `sum(w*x)` of the log-normal mean never
exceeds its exact value `1`, taken as the hypothesis `hund`): any rule
returned by `GaussHermite_lognorm` satisfies `|1 - sum(w*x)| <= 1e-6`
(indeed `< 1e-8`), and whenever the normalization fails that tolerance the
builder raises, so solving never proceeds with a mis-normalized rule. -/
theorem GaussHermite_lognorm_normalized (var : ℝ) (x w : List ℝ)
    (hund : wsum (ghTransformW w) (ghTransformX var x) ≤ 1) :
    (∀ r, GaussHermite_lognorm var x w = some r →
      |1 - wsum r.2 r.1| ≤ 1e-6) ∧
    (|1 - wsum (ghTransformW w) (ghTransformX var x)| > 1e-6 →
      GaussHermite_lognorm var x w = none) := by
  classical
  constructor
  · intro r hr
    unfold GaussHermite_lognorm at hr
    by_cases hc : 1 - wsum (ghTransformW w) (ghTransformX var x) < 1e-8
    · rw [if_pos hc] at hr
      have hr' : r = (ghTransformX var x, ghTransformW w) :=
        (Option.some_injective _ hr).symm
      subst hr'
      simp only
      rw [abs_of_nonneg (by linarith)]
      linarith
    · rw [if_neg hc] at hr
      exact absurd hr (by simp)
  · intro habs
    unfold GaussHermite_lognorm
    rw [if_neg]
    rw [abs_of_nonneg (by linarith)] at habs
    linarith

/-- Witness for `GaussHermite_lognorm_normalized` at `var = 0`, raw node
list `[0]`, raw weight list `[sqrt pi]`: the transformed rule is
`([1], [1])`, whose weighted node sum is exactly `1`. -/
theorem GaussHermite_lognorm_normalized_witness :
    wsum (ghTransformW [Real.sqrt Real.pi]) (ghTransformX 0 [0]) ≤ 1 ∧
    |1 - wsum [(1 : ℝ)] [(1 : ℝ)]| ≤ 1e-6 := by
  have hpi : Real.sqrt Real.pi ≠ 0 :=
    ne_of_gt (Real.sqrt_pos.mpr Real.pi_pos)
  have hx : ghTransformX 0 [0] = [(1 : ℝ)] := by
    simp [ghTransformX]
  have hw : ghTransformW [Real.sqrt Real.pi] = [(1 : ℝ)] := by
    simp [ghTransformW, div_self hpi]
  have hs : wsum (ghTransformW [Real.sqrt Real.pi]) (ghTransformX 0 [0]) = 1 := by
    rw [hx, hw]
    simp [wsum]
  have hund : wsum (ghTransformW [Real.sqrt Real.pi]) (ghTransformX 0 [0]) ≤ 1 := by
    rw [hs]
  have hsome : GaussHermite_lognorm 0 [0] [Real.sqrt Real.pi] =
      some ([(1 : ℝ)], [(1 : ℝ)]) := by
    classical
    unfold GaussHermite_lognorm
    rw [hx, hw]
    rw [if_pos (by norm_num [wsum])]
  exact ⟨hund,
    (GaussHermite_lognorm_normalized 0 [0] [Real.sqrt Real.pi] hund).1
      ([(1 : ℝ)], [(1 : ℝ)]) hsome⟩

/-! ### Simulation randomness (`Main/Model.py`, `setup_grids` and
`_simulate_prep`)

Numpy's global random generator is modelled as a state holding the current
seed and the position reached in that seed's deterministic value stream;
the stream itself (`stream : seed → position → value`) abstracts the
external Mersenne–Twister generator.  `np.random.seed(s)` resets the state
to position `0` of seed `s`; every draw consumes positions in order. -/

/-- The slice of the parameter class used by the simulation:
`simT`, `simN`, `Tr`, `sim_seed` as in `Model.setup`, plus the survival
probability consumed by the lifecycle's mortality channel. -/
structure ParS where
  simT : ℕ
  simN : ℕ
  Tr : ℕ
  sim_seed : ℕ
  survival : ℚ
deriving DecidableEq, Repr

/-- State of numpy's global generator: current seed and stream position. -/
structure NpRandomState where
  seed : ℕ
  pos : ℕ
deriving DecidableEq, Repr

/-- `np.random.seed(s)`. -/
def np_seed (s : ℕ) : NpRandomState := ⟨s, 0⟩

/-- Drawing `n` values advances the position by `n`. -/
def np_rand (stream : ℕ → ℕ → ℚ) (st : NpRandomState) (n : ℕ) :
    List ℚ × NpRandomState :=
  ((List.range n).map (fun k => stream st.seed (st.pos + k)),
   ⟨st.seed, st.pos + n⟩)

/-- The RNG effect of `Model.setup_grids` (`Main/Model.py`, line 278):
`np.random.seed(self.par.sim_seed)`.  This runs during model setup, not
inside `simulate`. -/
def setup_grids_rng (par : ParS) : NpRandomState := np_seed par.sim_seed

/-- The shock arrays drawn by `Model._simulate_prep`. -/
structure SimDraws where
  unif : List ℚ
  deadP : List ℚ
  inc_shock : List ℚ
deriving DecidableEq, Repr

/-- The random draws of `Model._simulate_prep` (`Main/Model.py`, lines
375-383): `sim.unif = np.random.rand(par.simT,par.simN)`, then
`sim.deadP = np.random.rand(par.simT,par.simN)`, then `par.Tr-1` lognormal
income shocks per household; the lognormal transformation applied to the
raw stream values is external numpy code, abstracted as `lgn`. -/
def simulate_prep (stream : ℕ → ℕ → ℚ) (lgn : ℚ → ℚ) (par : ParS)
    (st : NpRandomState) : SimDraws × NpRandomState :=
  let r1 := np_rand stream st (par.simT * par.simN)
  let r2 := np_rand stream r1.2 (par.simT * par.simN)
  let r3 := np_rand stream r2.2 (par.simN * (par.Tr - 1))
  (⟨r1.1, r2.1, r3.1.map lgn⟩, r3.2)

/-- Modelled from the spec: `simulate.lifecycle` is repository code that is
not present under `src/` (`Main/Model.py` line 394 calls it).  Per the
spec's Forward Simulator, each period draws mortality via a uniform random
variable against the survival lookup and marks the household dead
thereafter.  This models the alive trajectory of a single household: alive
in the initial period (`sim.alive` is initialized to ones), and thereafter
alive exactly when previously alive and the period's mortality draw does
not exceed the survival probability. -/
def alive_path (surv : ℚ) : ℚ → List ℚ → List ℚ
  | _, [] => []
  | prev, dp :: rest =>
      let cur := if prev = 1 ∧ dp ≤ surv then (1 : ℚ) else 0
      cur :: alive_path surv cur rest

/-- Modelled from the spec: the alive trajectory over the simulation
horizon, one entry per period, driven by the `deadP` draws (the first
period is initialized alive and consumes no draw). -/
def lifecycle_alive (surv : ℚ) : List ℚ → List ℚ
  | [] => []
  | _ :: rest => 1 :: alive_path surv 1 rest

/-- `Model.simulate` (`Main/Model.py`, lines 386-394): allocate and draw
via `_simulate_prep`, then walk the lifecycle forward.  It does not reset
the random seed.  Returns the drawn shock arrays, the alive trajectory,
and the global generator state it leaves behind. -/
def simulate (stream : ℕ → ℕ → ℚ) (lgn : ℚ → ℚ) (par : ParS)
    (st : NpRandomState) : (SimDraws × List ℚ) × NpRandomState :=
  let r := simulate_prep stream lgn par st
  ((r.1, lifecycle_alive par.survival r.1.deadP), r.2)

/-- Total number of stream positions one `simulate` call consumes. -/
def sim_draw_total (par : ParS) : ℕ :=
  par.simT * par.simN + par.simT * par.simN + par.simN * (par.Tr - 1)

/-- Claim C9, counterexample: With `simT = 2`, `simN = 1`, `Tr = 1`,
`sim_seed = 7`, survival probability `1/2`, and a stream whose first four
values are `0` and later values `1`: the first `simulate` call after setup
draws `deadP = [0,0]` giving the alive trajectory `[1,1]`, while the
immediately following second `simulate` call (no reseeding happens in
between) draws `deadP = [1,1]` giving `[1,0]`.  Two calls on the same
solved model therefore do not return identical alive arrays. -/
theorem simulate_two_calls_differ :
    (simulate (fun _ pos => if pos < 4 then (0 : ℚ) else 1) id ⟨2, 1, 1, 7, 1/2⟩
      ((simulate (fun _ pos => if pos < 4 then (0 : ℚ) else 1) id ⟨2, 1, 1, 7, 1/2⟩
        (setup_grids_rng ⟨2, 1, 1, 7, 1/2⟩)).2)).1.2 ≠
    (simulate (fun _ pos => if pos < 4 then (0 : ℚ) else 1) id ⟨2, 1, 1, 7, 1/2⟩
      (setup_grids_rng ⟨2, 1, 1, 7, 1/2⟩)).1.2 := by
  have hr : List.range 2 = [0, 1] := by decide
  have h1 : (simulate (fun _ pos => if pos < 4 then (0 : ℚ) else 1) id
      ⟨2, 1, 1, 7, 1/2⟩ (setup_grids_rng ⟨2, 1, 1, 7, 1/2⟩)).1.2 = [1, 1] := by
    norm_num [simulate, simulate_prep, np_rand, setup_grids_rng, np_seed,
      lifecycle_alive, alive_path, hr]
  have h2 : (simulate (fun _ pos => if pos < 4 then (0 : ℚ) else 1) id
      ⟨2, 1, 1, 7, 1/2⟩
      ((simulate (fun _ pos => if pos < 4 then (0 : ℚ) else 1) id
        ⟨2, 1, 1, 7, 1/2⟩ (setup_grids_rng ⟨2, 1, 1, 7, 1/2⟩)).2)).1.2 = [1, 0] := by
    norm_num [simulate, simulate_prep, np_rand, setup_grids_rng, np_seed,
      lifecycle_alive, alive_path, hr]
  rw [h1, h2]
  simp

/-- Claim C9, amended: The seed is set once, in `setup_grids`, not at the
start of each simulation: the first `simulate` call after setup reads the
stream of `par.sim_seed` from position `0`, a second back-to-back call
reads the same stream shifted by the `sim_draw_total par` positions the
first call consumed (so its draws generally differ), and a `simulate` call
preceded by re-running `setup_grids` (re-seeding) reproduces the first
call's result exactly. -/
theorem simulate_seed_amended (stream : ℕ → ℕ → ℚ) (lgn : ℚ → ℚ) (par : ParS) :
    ((simulate stream lgn par (setup_grids_rng par)).1.1.unif =
      (List.range (par.simT * par.simN)).map (fun k => stream par.sim_seed k)) ∧
    ((simulate stream lgn par
        ((simulate stream lgn par (setup_grids_rng par)).2)).1.1.unif =
      (List.range (par.simT * par.simN)).map
        (fun k => stream par.sim_seed (sim_draw_total par + k))) ∧
    (simulate stream lgn par (setup_grids_rng par) =
      simulate stream lgn par (np_seed par.sim_seed)) := by
  refine ⟨?_, ?_, rfl⟩
  · simp [simulate, simulate_prep, np_rand, setup_grids_rng, np_seed]
  · simp [simulate, simulate_prep, np_rand, setup_grids_rng, np_seed,
      sim_draw_total]

end Retirement
